import Mathlib

/-!
Shallow embedding of the evm-indexer pipeline:
`src/bin/indexer.rs` (sync_chain, fetch_block, subscribe_heads),
`src/src/fetcher.rs` (fetch_blocks provider partitioning) and
`src/src/parsers/erc20_transfers_parser.rs` (ERC-20 Transfer log decoding).
Rust panics (`unwrap`, out-of-range chunk sizes) are modelled as
`Except.error ()`; graceful "no data" results as `Option.none`.
-/

/-! ## Hex decoding (array_bytes::hex_n_into with N = 32) -/

/-- Value of one hexadecimal digit, accepting both cases, as in array_bytes. -/
def hexCharVal (c : Char) : Option Nat :=
  if '0' ≤ c ∧ c ≤ '9' then some (c.toNat - '0'.toNat)
  else if 'a' ≤ c ∧ c ≤ 'f' then some (c.toNat - 'a'.toNat + 10)
  else if 'A' ≤ c ∧ c ≤ 'F' then some (c.toNat - 'A'.toNat + 10)
  else none

/-- Decode pairs of hex digits into bytes; fails on odd length or a non-hex digit. -/
def hexPairsToBytes : List Char → Option (List Nat)
  | [] => some []
  | [_] => none
  | c1 :: c2 :: rest =>
    match hexCharVal c1, hexCharVal c2, hexPairsToBytes rest with
    | some hi, some lo, some bs => some ((hi * 16 + lo) :: bs)
    | _, _, _ => none

/-- Drop a leading "0x" marker if present, as array_bytes does before decoding. -/
def strip0x (s : String) : List Char :=
  match s.toList with
  | '0' :: 'x' :: rest => rest
  | cs => cs

/-- Model of `array_bytes::hex_n_into::<String, _, 32>`: the hex string must encode exactly
32 bytes; otherwise the conversion fails (and the parser's `unwrap` panics). -/
def hexNInto32 (s : String) : Option (List Nat) :=
  let cs := strip0x s
  if cs.length = 64 then hexPairsToBytes cs else none

/-! ## Formatting (Debug rendering of H160 addresses and U256 values) -/

/-- Lowercase hex digit for a value below 16. -/
def hexDigitChar (n : Nat) : Char :=
  if n < 10 then Char.ofNat ('0'.toNat + n) else Char.ofNat ('a'.toNat + n - 10)

/-- Two lowercase hex digits of one byte. -/
def byteHexChars (b : Nat) : List Char :=
  [hexDigitChar (b / 16), hexDigitChar (b % 16)]

/-- Lowercase hex rendering of a byte list. -/
def bytesToHexLower (bs : List Nat) : String :=
  String.mk (bs.flatMap byteHexChars)

/-- Debug rendering of an H160 address: "0x" followed by 40 lowercase hex digits. -/
def formatH160 (addr : List Nat) : String :=
  "0x" ++ bytesToHexLower addr

/-- Big-endian value of a byte list. -/
def bytesToNat (bs : List Nat) : Nat :=
  bs.foldl (fun acc b => acc * 256 + b) 0

/-- Debug rendering of a U256: canonical base-10 string. -/
def natToDecimalString (n : Nat) : String :=
  toString n

/-- Debug rendering of `keccak256("Transfer(address,address,uint256)")`, the
constant the parser compares topic 0 against. -/
def transferSignature : String :=
  "0xddf252ad1be2c89b69c2b068fc378daa952ba7f163c4a11628f55a4df523b3ef"

/-! ## ethabi decoding on a 32-byte word -/

/-- Model of `ethabi::decode(&[ParamType::Address], word)`: needs at least one 32-byte word
and takes its low 20 bytes; returns the token list. -/
def ethabiDecodeAddress (word : List Nat) : Option (List (List Nat)) :=
  if 32 ≤ word.length then some [(word.take 32).drop 12] else none

/-- Model of `ethabi::decode(&[ParamType::Uint(256)], word)`: needs at least one 32-byte
word, read big-endian; returns the token list. -/
def ethabiDecodeUint (word : List Nat) : Option (List Nat) :=
  if 32 ≤ word.length then some [bytesToNat (word.take 32)] else none

/-! ## Data model -/

/-- Structure `DatabaseEVMTransactionLog`, the fields the decoder reads and writes. -/
structure DatabaseEVMTransactionLog where
  hash : String
  log_index : Int
  address : String
  topics : List (Option String)
  data : String
  erc20_transfers_parsed : Option Bool
deriving DecidableEq

/-- Structure `DatabaseEVMErc20Transfer` as declared in erc20_transfers_parser.rs. -/
structure DatabaseEVMErc20Transfer where
  hash : String
  log_index : Int
  token : String
  from_address : String
  to_address : String
  value : String
  erc20_tokens_parced : Option Bool
deriving DecidableEq

/-! ## The decoder's per-log pass (`ERC20TransfersParser::parse` loop body) -/

/-- One iteration of the decode loop of `ERC20TransfersParser::parse`:
`.ok (some t)` emits a transfer record, `.ok none` is a `continue` (skip),
`.error ()` is a Rust panic (an `unwrap` on an absent topic entry or on a
failed 32-byte hex conversion). -/
def parseLog (log : DatabaseEVMTransactionLog) :
    Except Unit (Option DatabaseEVMErc20Transfer) :=
  if log.topics.length ≠ 3 then .ok none
  else
    match (log.topics[0]?).join with
    | none => .error ()
    | some t0 =>
      if t0 ≠ transferSignature then .ok none
      else
        match (log.topics[1]?).join with
        | none => .error ()
        | some s2 =>
          match (log.topics[2]?).join with
          | none => .error ()
          | some s3 =>
            match hexNInto32 s2 with
            | none => .error ()
            | some b2 =>
              match hexNInto32 s3 with
              | none => .error ()
              | some b3 =>
                match hexNInto32 log.data with
                | none => .error ()
                | some d =>
                  match ethabiDecodeAddress b2 with
                  | none => .ok none
                  | some [] => .ok none
                  | some (fromAddr :: _) =>
                    match ethabiDecodeAddress b3 with
                    | none => .ok none
                    | some [] => .ok none
                    | some (toAddr :: _) =>
                      match ethabiDecodeUint d with
                      | none => .ok none
                      | some [] => .ok none
                      | some (v :: _) =>
                        .ok (some
                          { hash := log.hash
                            log_index := log.log_index
                            token := log.address
                            from_address := formatH160 fromAddr
                            to_address := formatH160 toAddr
                            value := natToDecimalString v
                            erc20_tokens_parced := some false })

/-- Copy of a log with its parse flag set, pushed unconditionally at the top of
the decode loop before any skip or decode attempt. -/
def setParsedTrue (log : DatabaseEVMTransactionLog) : DatabaseEVMTransactionLog :=
  { log with erc20_transfers_parsed := some true }

/-- The decode loop over one fetched page: accumulates the emitted transfer
records and the flagged log copies that are written back afterwards.  A panic
anywhere aborts the pass before either database write happens. -/
def parsePage : List DatabaseEVMTransactionLog →
    Except Unit (List DatabaseEVMErc20Transfer × List DatabaseEVMTransactionLog)
  | [] => .ok ([], [])
  | log :: rest =>
    match parseLog log, parsePage rest with
    | .error e, _ => .error e
    | .ok _, .error e => .error e
    | .ok none, .ok (ts, ls) => .ok (ts, setParsedTrue log :: ls)
    | .ok (some t), .ok (ts, ls) => .ok (t :: ts, setParsedTrue log :: ls)

/-- The on-conflict action of the parsed-log write-back:
`do_update().set(erc20_transfers_parsed.eq(true))` writes `true` whatever the
stored value was. -/
def decoderFlagWrite (_old : Option Bool) : Option Bool :=
  some true

/-! ## Block assembly (`fetch_block` in src/bin/indexer.rs) -/

/-- Structure `DatabaseEVMBlock`, the fields fetch_block and sync_chain inspect. -/
structure DatabaseEVMBlock where
  number : Int
  transactions : Int
deriving DecidableEq

/-- Structure `DatabaseEVMTransaction`, the field fetch_block inspects. -/
structure DatabaseEVMTransaction where
  hash : String
deriving DecidableEq

/-- Structure `DatabaseEVMTransactionReceipt` (opaque to the indexer logic). -/
structure DatabaseEVMTransactionReceipt where
  hash : String
deriving DecidableEq

/-- Structure `DatabaseEVMContract` (opaque to the indexer logic). -/
structure DatabaseEVMContract where
  address : String
deriving DecidableEq

/-- The per-chain capability flag consulted by fetch_block. -/
structure Chain where
  supports_blocks_receipts : Bool
deriving DecidableEq

/-- The bundle fetch_block returns on success, in the source's tuple order:
block, transactions, receipts, logs, contracts. -/
abbrev BlockBundle :=
  DatabaseEVMBlock × List DatabaseEVMTransaction ×
  List DatabaseEVMTransactionReceipt × List DatabaseEVMTransactionLog ×
  List DatabaseEVMContract

/-- Responses of the RPC client for one block: `.error` is an `Err` result
(which fetch_block `unwrap`s, panicking), `.ok none` an empty response. -/
structure RpcEnv where
  getBlock : Except Unit (Option (DatabaseEVMBlock × List DatabaseEVMTransaction))
  getBlockReceipts : Except Unit (Option (List DatabaseEVMTransactionReceipt ×
    List DatabaseEVMTransactionLog × List DatabaseEVMContract))
  getTransactionReceipt : String → Except Unit (Option (DatabaseEVMTransactionReceipt ×
    List DatabaseEVMTransactionLog × Option DatabaseEVMContract))

/-- The per-transaction receipt loop of fetch_block (chains without bulk block
receipts): an `Err` from the RPC is `unwrap`ed (panic); an empty receipt
response skips that transaction; a deployment contract, when present, is
accumulated. -/
def perTxReceipts (rpc : RpcEnv) : List DatabaseEVMTransaction →
    Except Unit (List DatabaseEVMTransactionReceipt × List DatabaseEVMTransactionLog ×
      List DatabaseEVMContract)
  | [] => .ok ([], [], [])
  | tx :: rest =>
    match rpc.getTransactionReceipt tx.hash with
    | .error e => .error e
    | .ok none => perTxReceipts rpc rest
    | .ok (some (r, ls, contract)) =>
      match perTxReceipts rpc rest with
      | .error e => .error e
      | .ok (rs, lss, cs) =>
        match contract with
        | some c => .ok (r :: rs, ls ++ lss, c :: cs)
        | none => .ok (r :: rs, ls ++ lss, cs)

/-- Receipt acquisition of fetch_block: one bulk call when the chain supports
block receipts (whose empty response rejects the block), else the
per-transaction loop (which never yields a rejection by itself). -/
def fetchReceipts (rpc : RpcEnv) (chain : Chain) (txs : List DatabaseEVMTransaction) :
    Except Unit (Option (List DatabaseEVMTransactionReceipt ×
      List DatabaseEVMTransactionLog × List DatabaseEVMContract)) :=
  if chain.supports_blocks_receipts then
    match rpc.getBlockReceipts with
    | .error e => .error e
    | .ok none => .ok none
    | .ok (some x) => .ok (some x)
  else
    match perTxReceipts rpc txs with
    | .error e => .error e
    | .ok x => .ok (some x)

/-- Model of `fetch_block`: `.ok (some bundle)` on success, `.ok none` on any rejection
(empty block response, transaction-count mismatch, empty bulk-receipt
response, receipt-count mismatch), `.error ()` when an RPC `Err` is
`unwrap`ed. -/
def fetchBlock (rpc : RpcEnv) (chain : Chain) : Except Unit (Option BlockBundle) :=
  match rpc.getBlock with
  | .error e => .error e
  | .ok none => .ok none
  | .ok (some (dbBlock, dbTransactions)) =>
    if dbBlock.transactions ≠ (dbTransactions.length : Int) then .ok none
    else
      match fetchReceipts rpc chain dbTransactions with
      | .error e => .error e
      | .ok none => .ok none
      | .ok (some (dbReceipts, dbLogs, dbContracts)) =>
        if dbTransactions.length ≠ dbReceipts.length then .ok none
        else .ok (some (dbBlock, dbTransactions, dbReceipts, dbLogs, dbContracts))

/-! ## Gap computation (`sync_chain` in src/bin/indexer.rs, `fetch_blocks` in
src/src/fetcher.rs) -/

/-- The Rust range `start..last` over i64, as an ascending list. -/
def blockRange (startBlock lastBlock : Int) : List Int :=
  (List.range (lastBlock - startBlock).toNat).map (fun i : Nat => startBlock + (i : Int))

/-- Model of `missing_blocks`: the range filtered by non-membership in the indexed set. -/
def missingBlocks (startBlock lastBlock : Int) (indexed : Finset Int) : List Int :=
  (blockRange startBlock lastBlock).filter (fun b => b ∉ indexed)

/-! ## Chunk-store-checkpoint step of sync_chain -/

/-- The successful bundles of one batch, in order: the `Some` arms collected by
the result loop of sync_chain, exactly what one `store_data` call receives. -/
def collectBundles (results : List (Option BlockBundle)) : List BlockBundle :=
  results.filterMap id

/-- The block numbers inserted into `indexed_blocks` after the store call. -/
def storedBlockNumbers (results : List (Option BlockBundle)) : List Int :=
  (collectBundles results).map (fun b => b.1.number)

/-- State of `indexed_blocks` after one chunk: previous members plus the numbers of the
blocks just stored. -/
def updatedIndexedBlocks (indexed : Finset Int) (results : List (Option BlockBundle)) :
    Finset Int :=
  indexed ∪ (storedBlockNumbers results).toFinset

/-- Both count checks of fetch_block hold of a bundle. -/
def CompleteBundle (b : BlockBundle) : Prop :=
  b.1.transactions = (b.2.1.length : Int) ∧ b.2.2.1.length = b.2.1.length

/-! ## Provider partitioning (`fetch_blocks` in src/src/fetcher.rs) -/

/-- Rust's `slice::chunks c`: contiguous chunks of size `c`, the last possibly
shorter.  (Rust panics on `c = 0`; the caller below models that guard.) -/
def chunksList (c : Nat) : List Int → List (List Int)
  | [] => []
  | x :: xs => (x :: xs.take (c - 1)) :: chunksList c (xs.drop (c - 1))
termination_by l => l.length
decreasing_by simp; omega

/-- Model of `providers_chunk`: chunk the missing list with size
`missing_blocks_amount / providers_amount`; a zero chunk size (fewer missing
blocks than providers, or zero providers) is a Rust panic, modelled as
`.error ()`. -/
def providersChunk (missing : List Int) (providersAmount : Nat) :
    Except Unit (List (List Int)) :=
  if missing.length / providersAmount = 0 then .error ()
  else .ok (chunksList (missing.length / providersAmount) missing)

/-- The slices actually dispatched: the enumeration loop pairs each of the
`providersAmount` providers with `providers_chunk[i]`, so only the first
`providersAmount` chunks are ever processed. -/
def dispatchedChunks (missing : List Int) (providersAmount : Nat) :
    Except Unit (List (List Int)) :=
  (providersChunk missing providersAmount).map (fun cs => cs.take providersAmount)

/-! ## Head subscription (`subscribe_heads` in src/bin/indexer.rs) -/

/-- How one call of subscribe_heads ends. -/
inductive SubOutcome where
  | rtn
  | panics
  | diverges
deriving DecidableEq

/-- The notification loop body over the finite part of the stream: an `Err`
header is skipped (`continue`); an `Ok` header without a number panics on
`number.unwrap()`; otherwise the block number is spawned for processing. -/
def processHeadItems : List (Except Unit (Option Int)) → Except Unit (List Int)
  | [] => .ok []
  | .error _ :: rest => processHeadItems rest
  | .ok none :: _ => .error ()
  | .ok (some n) :: rest =>
    match processHeadItems rest with
    | .error e => .error e
    | .ok ns => .ok (n :: ns)

/-- Control outcome of one subscribe_heads call.  A failed WebSocket connection
returns (`None => return`).  A failed `subscribe_new_heads` is `unwrap`ed:
panic.  Once subscribed, every arm of the notification loop `continue`s —
including `None` when the stream ends — so the loop has no exit and the call
diverges unless a header panics. -/
def subscribeHeadsOutcome (wsOk : Bool)
    (sub : Except Unit (List (Except Unit (Option Int)))) : SubOutcome :=
  if !wsOk then .rtn
  else
    match sub with
    | .error _ => .panics
    | .ok items =>
      match processHeadItems items with
      | .error _ => .panics
      | .ok _ => .diverges

/-! ## Helper lemmas -/

theorem hexPairsToBytes_len : ∀ (cs : List Char) (bs : List Nat),
    hexPairsToBytes cs = some bs → 2 * bs.length = cs.length
  | [], bs, h => by
    simp [hexPairsToBytes] at h
    simp [← h]
  | [_], bs, h => by
    simp [hexPairsToBytes] at h
  | c1 :: c2 :: rest, bs, h => by
    simp only [hexPairsToBytes] at h
    cases h1 : hexCharVal c1 <;> rw [h1] at h
    · simp at h
    cases h2 : hexCharVal c2 <;> rw [h2] at h
    · simp at h
    cases h3 : hexPairsToBytes rest <;> rw [h3] at h
    · simp at h
    simp only [Option.some.injEq] at h
    subst h
    have := hexPairsToBytes_len rest _ h3
    simp only [List.length_cons]
    omega

theorem hexNInto32_len (s : String) (bs : List Nat)
    (h : hexNInto32 s = some bs) : bs.length = 32 := by
  unfold hexNInto32 at h
  by_cases hc : (strip0x s).length = 64
  · rw [if_pos hc] at h
    have := hexPairsToBytes_len _ _ h
    omega
  · rw [if_neg hc] at h
    exact absurd h (by simp)

theorem take32_of_len32 (l : List Nat) (h : l.length = 32) : l.take 32 = l := by
  rw [← h]
  exact List.take_length l

/-- Any bundle fetch_block actually returns has passed both count checks. -/
theorem fetchBlock_ok_some_complete (rpc : RpcEnv) (chain : Chain) (b : BlockBundle)
    (h : fetchBlock rpc chain = .ok (some b)) : CompleteBundle b := by
  unfold fetchBlock at h
  cases hgb : rpc.getBlock with
  | error e => rw [hgb] at h; exact absurd h (by simp)
  | ok v =>
    rw [hgb] at h
    cases v with
    | none => exact absurd h (by simp)
    | some p =>
      obtain ⟨blk, txs⟩ := p
      dsimp only at h
      by_cases hne : blk.transactions ≠ (txs.length : Int)
      · rw [if_pos hne] at h; exact absurd h (by simp)
      · rw [if_neg hne] at h
        push_neg at hne
        cases hfr : fetchReceipts rpc chain txs with
        | error e => rw [hfr] at h; exact absurd h (by simp)
        | ok w =>
          rw [hfr] at h
          cases w with
          | none => exact absurd h (by simp)
          | some q =>
            obtain ⟨rs, ls, cs⟩ := q
            dsimp only at h
            by_cases hrne : txs.length ≠ rs.length
            · rw [if_pos hrne] at h; exact absurd h (by simp)
            · rw [if_neg hrne] at h
              push_neg at hrne
              simp only [Except.ok.injEq, Option.some.injEq] at h
              subst h
              exact ⟨hne, hrne.symm⟩

/-! ## Claim theorems -/

/-- Claim C2: for every start block, tip and indexed set, the computed
missing-block list is exactly the integers of [start, tip) outside the set,
in strictly ascending order (hence with no duplicates and nothing outside the
range). -/
theorem missingBlocks_gap_exact (startBlock lastBlock : Int) (indexed : Finset Int) :
    (∀ b : Int, b ∈ missingBlocks startBlock lastBlock indexed ↔
      startBlock ≤ b ∧ b < lastBlock ∧ b ∉ indexed) ∧
    (missingBlocks startBlock lastBlock indexed).Pairwise (· < ·) := by
  constructor
  · intro b
    simp only [missingBlocks, blockRange, List.mem_filter, List.mem_map,
      List.mem_range, decide_eq_true_eq]
    constructor
    · rintro ⟨⟨i, hi, rfl⟩, hnotin⟩
      exact ⟨by omega, by omega, hnotin⟩
    · rintro ⟨h1, h2, h3⟩
      exact ⟨⟨(b - startBlock).toNat, by omega, by omega⟩, h3⟩
  · unfold missingBlocks blockRange
    refine List.Pairwise.sublist (List.filter_sublist _) ?_
    refine (List.pairwise_lt_range _).map _ ?_
    intro a b hab
    omega

/-- Claim C10: with a positive provider count and fewer missing blocks than
providers (in particular a fully synced chain with no missing blocks), the
chunk size `missing_blocks_amount / providers_amount` is zero and
`slice::chunks(0)` panics. -/
theorem providersChunk_panics_when_few (missing : List Int) (providersAmount : Nat)
    (_hP : 0 < providersAmount) (hlt : missing.length < providersAmount) :
    providersChunk missing providersAmount = .error () := by
  unfold providersChunk
  rw [Nat.div_eq_of_lt hlt]
  simp

/-- Witness for C10: the steady state of zero missing blocks with one provider
panics. -/
theorem providersChunk_panics_when_few_witness :
    providersChunk ([] : List Int) 1 = .error () :=
  providersChunk_panics_when_few [] 1 (by decide) (by decide)

theorem chunksList_flatten (c : Nat) (l : List Int) : (chunksList c l).flatten = l := by
  induction l using chunksList.induct c with
  | case1 => simp [chunksList]
  | case2 x xs ih => simp [chunksList, ih, List.take_append_drop]

theorem chunksList_length_mul (c : Nat) (hc : 0 < c) :
    ∀ (p : Nat) (l : List Int), l.length = c * p → (chunksList c l).length = p := by
  intro p
  induction p with
  | zero =>
    intro l hl
    simp only [Nat.mul_zero] at hl
    rw [List.length_eq_zero] at hl
    subst hl
    simp [chunksList]
  | succ q ih =>
    intro l hl
    cases l with
    | nil => simp at hl; omega
    | cons x xs =>
      have hd : (xs.drop (c - 1)).length = c * q := by
        simp only [List.length_drop]
        simp only [List.length_cons, Nat.mul_succ] at hl
        omega
      simp [chunksList, ih _ hd]

/-- Claim C8 counterexample: three missing blocks over two providers give a
chunk size of one, hence three chunks, of which the enumeration over the two
providers dispatches only the first two — missing block 2 is in no dispatched
slice, so the dispatched slices are not a partition of the missing list. -/
theorem dispatchedChunks_remainder_dropped :
    dispatchedChunks [0, 1, 2] 2 = .ok [[0], [1]] ∧
    (2 : Int) ∈ ([0, 1, 2] : List Int) ∧
    ∀ s ∈ [[(0 : Int)], [1]], (2 : Int) ∉ s := by
  refine ⟨?_, by decide, by decide⟩
  simp [dispatchedChunks, providersChunk, chunksList, Except.map]

/-- Claim C8 as amended: when the provider count P is positive and divides the
length of the non-empty missing list, the chunking yields exactly P contiguous
slices, all of them dispatched, whose concatenation is the whole missing list,
and (the missing list having no duplicates) each missing block lands in
exactly one slice; when P does not divide the length, the extra remainder
chunk is never dispatched. -/
theorem providersChunk_partition_of_dvd (missing : List Int) (p : Nat)
    (hP : 0 < p) (hne : missing ≠ []) (hdvd : p ∣ missing.length) :
    ∃ cs : List (List Int),
      providersChunk missing p = .ok cs ∧
      dispatchedChunks missing p = .ok cs ∧
      cs.length = p ∧
      cs.flatten = missing ∧
      (missing.Nodup → ∀ b ∈ missing, (cs.map (List.count b)).sum = 1) := by
  obtain ⟨k, hk⟩ := hdvd
  have hpos : 0 < missing.length := List.length_pos.mpr hne
  have hkpos : 0 < k := by
    rcases Nat.eq_zero_or_pos k with h0 | h
    · subst h0; rw [Nat.mul_zero] at hk; omega
    · exact h
  have hc : missing.length / p = k := by
    rw [hk, Nat.mul_div_cancel_left _ hP]
  have hlenk : missing.length = k * p := by rw [hk]; ring
  have hlencs : (chunksList k missing).length = p :=
    chunksList_length_mul k hkpos p missing hlenk
  refine ⟨chunksList k missing, ?_, ?_, hlencs, chunksList_flatten k missing, ?_⟩
  · unfold providersChunk
    rw [hc]
    rw [if_neg hkpos.ne']
  · unfold dispatchedChunks providersChunk
    rw [hc]
    rw [if_neg hkpos.ne']
    simp only [Except.map]
    rw [← hlencs, List.take_length]
  · intro hnd b hb
    calc ((chunksList k missing).map (List.count b)).sum
        = (chunksList k missing).flatten.count b := (List.count_flatten b _).symm
      _ = missing.count b := by rw [chunksList_flatten]
      _ = 1 := List.count_eq_one_of_mem hnd hb

/-- Witness for the amended C8: two missing blocks over two providers are
partitioned into two dispatched singleton slices. -/
theorem providersChunk_partition_of_dvd_witness :
    ∃ cs : List (List Int),
      providersChunk [5, 6] 2 = .ok cs ∧
      dispatchedChunks [5, 6] 2 = .ok cs ∧
      cs.length = 2 ∧
      cs.flatten = [5, 6] ∧
      (([5, 6] : List Int).Nodup → ∀ b ∈ ([5, 6] : List Int),
        (cs.map (List.count b)).sum = 1) :=
  providersChunk_partition_of_dvd [5, 6] 2 (by decide) (by decide) (by decide)

/-- Claim C9 counterexample: with the WebSocket connected and a subscription
stream that ends at once, subscribe_heads spins in its inner notification loop
(`None => continue`) and never returns, so control does not go back to the
restarting outer loop. -/
theorem subscribeHeads_stream_end_no_restart :
    subscribeHeadsOutcome true (.ok []) = SubOutcome.diverges ∧
    SubOutcome.diverges ≠ SubOutcome.rtn :=
  ⟨rfl, by decide⟩

/-- Claim C9 as amended: subscribe_heads hands control back to the supervisory
outer loop exactly when the WebSocket connection fails to open; once
subscribed it never returns — a failed subscription call or a header without
a number panics the task, and otherwise the notification loop (including the
stream-ended arm) continues forever. -/
theorem subscribeHeads_rtn_iff_ws_failed (wsOk : Bool)
    (sub : Except Unit (List (Except Unit (Option Int)))) :
    subscribeHeadsOutcome wsOk sub = SubOutcome.rtn ↔ wsOk = false := by
  cases wsOk
  · simp [subscribeHeadsOutcome]
  · cases sub with
    | error e => simp [subscribeHeadsOutcome]
    | ok items =>
      cases h : processHeadItems items <;>
        simp [subscribeHeadsOutcome, h]

/-- Claim C1: fetch_block returns a bundle only when the block's declared
transaction count equals the fetched transaction list's length and the number
of receipts obtained equals the number of transactions; if either count check
fails it returns None, so no partially-complete bundle reaches the store. -/
theorem fetchBlock_count_checks (rpc : RpcEnv) (chain : Chain) :
    (∀ b : BlockBundle, fetchBlock rpc chain = .ok (some b) →
      b.1.transactions = (b.2.1.length : Int) ∧ b.2.2.1.length = b.2.1.length) ∧
    (∀ blk txs, rpc.getBlock = .ok (some (blk, txs)) →
      blk.transactions ≠ (txs.length : Int) →
      fetchBlock rpc chain = .ok none) ∧
    (∀ blk txs rs ls cs, rpc.getBlock = .ok (some (blk, txs)) →
      blk.transactions = (txs.length : Int) →
      fetchReceipts rpc chain txs = .ok (some (rs, ls, cs)) →
      txs.length ≠ rs.length →
      fetchBlock rpc chain = .ok none) := by
  refine ⟨?_, ?_, ?_⟩
  · intro b h
    exact fetchBlock_ok_some_complete rpc chain b h
  · intro blk txs hgb hne
    unfold fetchBlock
    rw [hgb]
    dsimp only
    rw [if_pos hne]
  · intro blk txs rs ls cs hgb heq hfr hrne
    unfold fetchBlock
    rw [hgb]
    dsimp only
    rw [if_neg (by simp [heq]), hfr]
    dsimp only
    rw [if_pos hrne]

/-- A chain with the bulk-block-receipts capability. -/
def chainBulk : Chain := { supports_blocks_receipts := true }

/-- RPC responses declaring 2 transactions but listing only one. -/
def rpcMismatch : RpcEnv :=
  { getBlock := .ok (some ({ number := 7, transactions := 2 }, [{ hash := "0xa" }]))
    getBlockReceipts := .ok none
    getTransactionReceipt := fun _ => .ok none }

/-- Witness for C1: a declared-count mismatch makes fetch_block return None. -/
theorem fetchBlock_count_checks_witness :
    fetchBlock rpcMismatch chainBulk = .ok none :=
  (fetchBlock_count_checks rpcMismatch chainBulk).2.1
    { number := 7, transactions := 2 } [{ hash := "0xa" }] rfl (by decide)

/-- RPC responses whose calls all yield transport errors. -/
def rpcAllError : RpcEnv :=
  { getBlock := .error ()
    getBlockReceipts := .error ()
    getTransactionReceipt := fun _ => .error () }

/-- Claim C6 counterexample: an RPC call returning an error (`Err`) is
`unwrap`ed by fetch_block, which therefore panics instead of returning an
explicit "no data" result — refuting "never raises a fatal error for a single
bad block". -/
theorem fetchBlock_rpc_error_panics :
    fetchBlock rpcAllError chainBulk = .error () := rfl

theorem perTxReceipts_ok (rpc : RpcEnv)
    (ht : ∀ h, ∃ u, rpc.getTransactionReceipt h = .ok u) :
    ∀ txs, ∃ x, perTxReceipts rpc txs = .ok x := by
  intro txs
  induction txs with
  | nil => exact ⟨([], [], []), rfl⟩
  | cons tx rest ih =>
    obtain ⟨u, hu⟩ := ht tx.hash
    obtain ⟨x, hx⟩ := ih
    cases u with
    | none => exact ⟨x, by simp [perTxReceipts, hu, hx]⟩
    | some q =>
      obtain ⟨r, ls, contract⟩ := q
      obtain ⟨rs, lss, cs2⟩ := x
      cases contract with
      | none =>
        exact ⟨(r :: rs, ls ++ lss, cs2), by simp [perTxReceipts, hu, hx]⟩
      | some c =>
        exact ⟨(r :: rs, ls ++ lss, c :: cs2), by simp [perTxReceipts, hu, hx]⟩

/-- Claim C6 as amended: whenever every RPC call involved yields an `Ok`
result (possibly carrying no data), fetch_block returns an explicit result —
the bundle or None — and does not panic; but an `Err` from an RPC call is
`unwrap`ed and panics, aborting the whole batch (see the counterexample). -/
theorem fetchBlock_no_panic_when_rpc_ok (rpc : RpcEnv) (chain : Chain)
    (hb : ∃ v, rpc.getBlock = .ok v)
    (hr : ∃ w, rpc.getBlockReceipts = .ok w)
    (ht : ∀ h, ∃ u, rpc.getTransactionReceipt h = .ok u) :
    ∃ r, fetchBlock rpc chain = .ok r := by
  obtain ⟨v, hv⟩ := hb
  unfold fetchBlock
  rw [hv]
  cases v with
  | none => exact ⟨none, rfl⟩
  | some p =>
    obtain ⟨blk, txs⟩ := p
    dsimp only
    by_cases hne : blk.transactions ≠ (txs.length : Int)
    · rw [if_pos hne]; exact ⟨none, rfl⟩
    · rw [if_neg hne]
      have hfr : ∃ w, fetchReceipts rpc chain txs = .ok w := by
        unfold fetchReceipts
        by_cases hcap : chain.supports_blocks_receipts
        · rw [if_pos hcap]
          obtain ⟨w, hw⟩ := hr
          rw [hw]
          cases w with
          | none => exact ⟨none, rfl⟩
          | some x => exact ⟨some x, rfl⟩
        · rw [if_neg hcap]
          obtain ⟨x, hx⟩ := perTxReceipts_ok rpc ht txs
          rw [hx]
          exact ⟨some x, rfl⟩
      obtain ⟨w, hw⟩ := hfr
      rw [hw]
      cases w with
      | none => exact ⟨none, rfl⟩
      | some q =>
        obtain ⟨rs, ls, cs⟩ := q
        dsimp only
        by_cases hrne : txs.length ≠ rs.length
        · rw [if_pos hrne]; exact ⟨none, rfl⟩
        · rw [if_neg hrne]; exact ⟨some (blk, txs, rs, ls, cs), rfl⟩

/-- RPC responses that are all `Ok` but carry no data. -/
def rpcEmptyOk : RpcEnv :=
  { getBlock := .ok none
    getBlockReceipts := .ok none
    getTransactionReceipt := fun _ => .ok none }

/-- Witness for the amended C6: all-Ok responses yield an explicit result. -/
theorem fetchBlock_no_panic_when_rpc_ok_witness :
    ∃ r, fetchBlock rpcEmptyOk chainBulk = .ok r :=
  fetchBlock_no_panic_when_rpc_ok rpcEmptyOk chainBulk
    ⟨none, rfl⟩ ⟨none, rfl⟩ (fun _ => ⟨none, rfl⟩)

/-- Claim C7: a block number newly inserted into the indexed-block set after
one chunk of sync_chain always names a bundle of that chunk's store call, and
that bundle — having come out of fetch_block — passed both count checks; no
block number enters the set on partial success. -/
theorem syncChunk_membership_complete (results : List (Option BlockBundle))
    (indexed : Finset Int)
    (hres : ∀ r ∈ results, ∃ rpc chain, fetchBlock rpc chain = .ok r) :
    ∀ n ∈ updatedIndexedBlocks indexed results, n ∉ indexed →
      ∃ b ∈ collectBundles results, b.1.number = n ∧ CompleteBundle b := by
  intro n hn hnot
  unfold updatedIndexedBlocks at hn
  rw [Finset.mem_union] at hn
  cases hn with
  | inl h => exact absurd h hnot
  | inr h =>
    rw [List.mem_toFinset] at h
    unfold storedBlockNumbers at h
    rw [List.mem_map] at h
    obtain ⟨b, hb, hnum⟩ := h
    refine ⟨b, hb, hnum, ?_⟩
    have hmem : some b ∈ results := by
      unfold collectBundles at hb
      rw [List.mem_filterMap] at hb
      obtain ⟨r, hr, hid⟩ := hb
      cases r with
      | none => simp at hid
      | some b2 => simp at hid; subst hid; exact hr
    obtain ⟨rpc, chain, hfb⟩ := hres _ hmem
    exact fetchBlock_ok_some_complete rpc chain b hfb

/-- RPC responses for a complete one-transaction block numbered 5. -/
def rpcGood : RpcEnv :=
  { getBlock := .ok (some ({ number := 5, transactions := 1 }, [{ hash := "0xa" }]))
    getBlockReceipts := .ok (some ([{ hash := "0xa" }], [], []))
    getTransactionReceipt := fun _ => .ok none }

/-- The bundle fetch_block assembles from `rpcGood`. -/
def bundleGood : BlockBundle :=
  ({ number := 5, transactions := 1 }, [{ hash := "0xa" }], [{ hash := "0xa" }], [], [])

/-- Witness for C7: the one stored block number names a complete bundle. -/
theorem syncChunk_membership_complete_witness :
    ∃ b ∈ collectBundles [some bundleGood], b.1.number = 5 ∧ CompleteBundle b :=
  syncChunk_membership_complete [some bundleGood] ∅
    (by
      intro r hr
      rw [List.mem_singleton] at hr
      subst hr
      exact ⟨rpcGood, chainBulk, rfl⟩)
    5
    (by simp [updatedIndexedBlocks, storedBlockNumbers, collectBundles, bundleGood])
    (by simp)

theorem parsePage_snd_eq : ∀ (logs : List DatabaseEVMTransactionLog)
    (ts : List DatabaseEVMErc20Transfer) (ls : List DatabaseEVMTransactionLog),
    parsePage logs = .ok (ts, ls) → ls = logs.map setParsedTrue
  | [], ts, ls, h => by
    simp only [parsePage, Except.ok.injEq, Prod.mk.injEq] at h
    rw [← h.2]
    simp
  | log :: rest, ts, ls, h => by
    simp only [parsePage] at h
    cases hpl : parseLog log with
    | error e => rw [hpl] at h; exact absurd h (by simp)
    | ok v =>
      rw [hpl] at h
      cases hpr : parsePage rest with
      | error e =>
        rw [hpr] at h
        cases v <;> exact absurd h (by simp)
      | ok pr =>
        rw [hpr] at h
        obtain ⟨ts2, ls2⟩ := pr
        have hrec := parsePage_snd_eq rest ts2 ls2 hpr
        cases v with
        | none =>
          dsimp only at h
          simp only [Except.ok.injEq, Prod.mk.injEq] at h
          rw [← h.2, hrec]
          simp
        | some t =>
          dsimp only at h
          simp only [Except.ok.injEq, Prod.mk.injEq] at h
          rw [← h.2, hrec]
          simp

/-- Claim C4: when the decoder pass completes, the log rows it writes back are
exactly the input page with every parse flag set to true — the flag is written
true whether the decode succeeded, failed, or was skipped — and the
on-conflict update only ever writes true, never false or unset. -/
theorem parsePage_flag_monotone (logs : List DatabaseEVMTransactionLog)
    (ts : List DatabaseEVMErc20Transfer) (ls : List DatabaseEVMTransactionLog)
    (h : parsePage logs = .ok (ts, ls)) :
    ls = logs.map setParsedTrue ∧
    (∀ l ∈ ls, l.erc20_transfers_parsed = some true) ∧
    (∀ old, decoderFlagWrite old = some true) := by
  have hsnd := parsePage_snd_eq logs ts ls h
  refine ⟨hsnd, ?_, fun _ => rfl⟩
  intro l hl
  rw [hsnd, List.mem_map] at hl
  obtain ⟨l0, _, rfl⟩ := hl
  rfl

/-- A log with two topics: skipped by the decoder, flag still set. -/
def logTwoTopics : DatabaseEVMTransactionLog :=
  { hash := "0xh", log_index := 0, address := "0xc",
    topics := [some "0xt0", some "0xt1"], data := "0x",
    erc20_transfers_parsed := none }

/-- Witness for C4: a one-log page is written back with the flag true. -/
theorem parsePage_flag_monotone_witness :
    [setParsedTrue logTwoTopics] = [logTwoTopics].map setParsedTrue ∧
    (∀ l ∈ [setParsedTrue logTwoTopics], l.erc20_transfers_parsed = some true) ∧
    (∀ old, decoderFlagWrite old = some true) :=
  parsePage_flag_monotone [logTwoTopics] [] [setParsedTrue logTwoTopics] rfl

/-- A three-topic log whose topic entries are absent (NULL in the database). -/
def logAbsentTopic : DatabaseEVMTransactionLog :=
  { hash := "0xh", log_index := 0, address := "0xc",
    topics := [none, none, none], data := "0x",
    erc20_transfers_parsed := none }

/-- Claim C5 counterexample: a log with three topics whose entries are absent
makes `log.topics[0].clone().unwrap()` panic, so the whole parse pass dies on
a single undecodable log instead of skipping it. -/
theorem parseLog_absent_topic_panics :
    parseLog logAbsentTopic = .error () := rfl

/-- Claim C5 as amended: a wrong topic count or a signature mismatch skips the
log without any hard error, but the only decode failures the pass survives are
those — every panic of the loop body comes from an absent topic entry or from
a malformed / wrong-length hex topic or data string being `unwrap`ed; the
ABI-decode stage itself never raises a hard error. -/
theorem parseLog_failure_policy :
    (∀ log : DatabaseEVMTransactionLog, log.topics.length ≠ 3 →
      parseLog log = .ok none) ∧
    (∀ (log : DatabaseEVMTransactionLog) (t0 : String), log.topics.length = 3 →
      (log.topics[0]?).join = some t0 → t0 ≠ transferSignature →
      parseLog log = .ok none) ∧
    (∀ log : DatabaseEVMTransactionLog, parseLog log = .error () →
      log.topics.length = 3 ∧
      ((log.topics[0]?).join = none ∨
       (log.topics[1]?).join = none ∨
       (log.topics[2]?).join = none ∨
       (∃ s, (log.topics[1]?).join = some s ∧ hexNInto32 s = none) ∨
       (∃ s, (log.topics[2]?).join = some s ∧ hexNInto32 s = none) ∨
       hexNInto32 log.data = none)) := by
  refine ⟨?_, ?_, ?_⟩
  · intro log hlen
    unfold parseLog
    rw [if_pos hlen]
  · intro log t0 hlen h0 hne
    unfold parseLog
    rw [if_neg (by simp [hlen]), h0]
    dsimp only
    rw [if_pos hne]
  · intro log h
    by_cases hlen : log.topics.length = 3
    swap
    · unfold parseLog at h
      rw [if_pos hlen] at h
      simp at h
    refine ⟨hlen, ?_⟩
    unfold parseLog at h
    rw [if_neg (by simp [hlen])] at h
    cases h0 : (log.topics[0]?).join with
    | none => exact Or.inl rfl
    | some t0 =>
      rw [h0] at h
      dsimp only at h
      by_cases ht0 : t0 ≠ transferSignature
      · rw [if_pos ht0] at h; simp at h
      · rw [if_neg ht0] at h
        cases h1 : (log.topics[1]?).join with
        | none => exact Or.inr (Or.inl rfl)
        | some s2 =>
          rw [h1] at h
          dsimp only at h
          cases h2 : (log.topics[2]?).join with
          | none => exact Or.inr (Or.inr (Or.inl rfl))
          | some s3 =>
            rw [h2] at h
            dsimp only at h
            cases hx2 : hexNInto32 s2 with
            | none => exact Or.inr (Or.inr (Or.inr (Or.inl ⟨s2, rfl, hx2⟩)))
            | some b2 =>
              rw [hx2] at h
              dsimp only at h
              cases hx3 : hexNInto32 s3 with
              | none => exact Or.inr (Or.inr (Or.inr (Or.inr (Or.inl ⟨s3, rfl, hx3⟩))))
              | some b3 =>
                rw [hx3] at h
                dsimp only at h
                cases hxd : hexNInto32 log.data with
                | none => exact Or.inr (Or.inr (Or.inr (Or.inr (Or.inr rfl))))
                | some d =>
                  rw [hxd] at h
                  dsimp only at h
                  exfalso
                  cases ha2 : ethabiDecodeAddress b2 with
                  | none => rw [ha2] at h; simp at h
                  | some l1 =>
                    rw [ha2] at h
                    cases l1 with
                    | nil => simp at h
                    | cons a1 r1 =>
                      dsimp only at h
                      cases ha3 : ethabiDecodeAddress b3 with
                      | none => rw [ha3] at h; simp at h
                      | some l2 =>
                        rw [ha3] at h
                        cases l2 with
                        | nil => simp at h
                        | cons a2 r2 =>
                          dsimp only at h
                          cases hau : ethabiDecodeUint d with
                          | none => rw [hau] at h; simp at h
                          | some l3 =>
                            rw [hau] at h
                            cases l3 with
                            | nil => simp at h
                            | cons v r3 => simp at h

/-- A three-topic log whose first topic is not the Transfer signature. -/
def logWrongSig : DatabaseEVMTransactionLog :=
  { hash := "0xh", log_index := 0, address := "0xc",
    topics := [some "0xother", some "0xt1", some "0xt2"], data := "0x",
    erc20_transfers_parsed := none }

/-- Witness for the amended C5: a wrong topic count and a signature mismatch
are both skipped without a hard error. -/
theorem parseLog_failure_policy_witness :
    parseLog logTwoTopics = .ok none ∧ parseLog logWrongSig = .ok none :=
  ⟨parseLog_failure_policy.1 logTwoTopics (by decide),
   parseLog_failure_policy.2.1 logWrongSig "0xother" rfl rfl (by decide)⟩

theorem ethabiDecodeAddress_of_len32 (b : List Nat) (h : b.length = 32) :
    ethabiDecodeAddress b = some [b.drop 12] := by
  unfold ethabiDecodeAddress
  rw [if_pos (by omega), take32_of_len32 b h]

theorem ethabiDecodeUint_of_len32 (d : List Nat) (h : d.length = 32) :
    ethabiDecodeUint d = some [bytesToNat d] := by
  unfold ethabiDecodeUint
  rw [if_pos (by omega), take32_of_len32 d h]

/-- Claim C3: the decode loop emits an Erc20Transfer record exactly when the
log has three topics, topic 0 equals the Transfer signature hash, and the two
address topics and the data payload all convert from hex; the record's
from/to are the low 20 bytes of topics 1 and 2 rendered as 0x-hex addresses
and its value is the data word's unsigned big-endian integer rendered as a
canonical base-10 string (data 0x…01 gives "1"). -/
theorem parseLog_emits_iff (log : DatabaseEVMTransactionLog)
    (t : DatabaseEVMErc20Transfer) :
    parseLog log = .ok (some t) ↔
      log.topics.length = 3 ∧
      (log.topics[0]?).join = some transferSignature ∧
      ∃ s2 s3 b2 b3 d,
        (log.topics[1]?).join = some s2 ∧
        (log.topics[2]?).join = some s3 ∧
        hexNInto32 s2 = some b2 ∧
        hexNInto32 s3 = some b3 ∧
        hexNInto32 log.data = some d ∧
        t = { hash := log.hash, log_index := log.log_index, token := log.address,
              from_address := formatH160 (b2.drop 12),
              to_address := formatH160 (b3.drop 12),
              value := natToDecimalString (bytesToNat d),
              erc20_tokens_parced := some false } := by
  constructor
  · intro h
    by_cases hlen : log.topics.length = 3
    swap
    · unfold parseLog at h
      rw [if_pos hlen] at h
      simp at h
    refine ⟨hlen, ?_⟩
    unfold parseLog at h
    rw [if_neg (by simp [hlen])] at h
    cases h0 : (log.topics[0]?).join with
    | none => rw [h0] at h; simp at h
    | some t0 =>
      rw [h0] at h
      dsimp only at h
      by_cases ht0 : t0 ≠ transferSignature
      · rw [if_pos ht0] at h; simp at h
      · push_neg at ht0
        subst ht0
        rw [if_neg (by simp)] at h
        refine ⟨rfl, ?_⟩
        cases h1 : (log.topics[1]?).join with
        | none => rw [h1] at h; simp at h
        | some s2 =>
          rw [h1] at h
          dsimp only at h
          cases h2 : (log.topics[2]?).join with
          | none => rw [h2] at h; simp at h
          | some s3 =>
            rw [h2] at h
            dsimp only at h
            cases hx2 : hexNInto32 s2 with
            | none => rw [hx2] at h; simp at h
            | some b2 =>
              rw [hx2] at h
              dsimp only at h
              cases hx3 : hexNInto32 s3 with
              | none => rw [hx3] at h; simp at h
              | some b3 =>
                rw [hx3] at h
                dsimp only at h
                cases hxd : hexNInto32 log.data with
                | none => rw [hxd] at h; simp at h
                | some d =>
                  rw [hxd] at h
                  dsimp only at h
                  rw [ethabiDecodeAddress_of_len32 b2 (hexNInto32_len s2 b2 hx2)] at h
                  rw [ethabiDecodeAddress_of_len32 b3 (hexNInto32_len s3 b3 hx3)] at h
                  rw [ethabiDecodeUint_of_len32 d (hexNInto32_len log.data d hxd)] at h
                  dsimp only at h
                  simp only [Except.ok.injEq, Option.some.injEq] at h
                  exact ⟨s2, s3, b2, b3, d, rfl, rfl, hx2, hx3, rfl, h.symm⟩
  · rintro ⟨hlen, h0, s2, s3, b2, b3, d, h1, h2, hx2, hx3, hxd, rfl⟩
    unfold parseLog
    rw [if_neg (by simp [hlen]), h0]
    dsimp only
    rw [if_neg (by simp), h1]
    dsimp only
    rw [h2]
    dsimp only
    rw [hx2]
    dsimp only
    rw [hx3]
    dsimp only
    rw [hxd]
    dsimp only
    rw [ethabiDecodeAddress_of_len32 b2 (hexNInto32_len s2 b2 hx2)]
    rw [ethabiDecodeAddress_of_len32 b3 (hexNInto32_len s3 b3 hx3)]
    rw [ethabiDecodeUint_of_len32 d (hexNInto32_len log.data d hxd)]
